import Mathlib

/-!
Shallow embedding of the Food-Memory repository for specification checking.

The embedding translates the TypeScript source into Lean:
* JavaScript numbers are modelled as real numbers (`ℝ`); `NaN` results of
  `parseFloat` are modelled by `Option ℝ` with `none` for `NaN`.
* Timestamps (ISO strings fed to `new Date(...).getTime()`) are modelled
  directly as epoch milliseconds (`ℤ`); parsing a well-formed ISO string is
  monotone and injective, so order comparisons are preserved.
* `string | null` fields are `Option String`; the JavaScript falsiness test
  `!x` on such a field is `truthyStr x = false` (both `null` and `""` are
  falsy).
* External HTTP collaborators (remove.bg, OpenAI, Google Places, blob
  storage) are modelled by explicit outcome values passed in as parameters;
  the control flow around those outcomes is translated from the source.
-/

/-- JavaScript truthiness of a `string | null` value: `null` and `""` are
falsy, every other string is truthy. -/
def truthyStr : Option String → Bool
  | none => false
  | some s => !(s == "")

/-- JavaScript `a || b` on `string | null` values: returns `a` when `a` is
truthy, otherwise `b`. -/
def jsOr (a b : Option String) : Option String :=
  match truthyStr a with
  | true => a
  | false => b

/-! ## Client data model (`app/FoodMemoryApp.tsx`) -/

/-- The client-side `FoodMemory` interface from `app/FoodMemoryApp.tsx`.
Image URLs are carried verbatim; timestamps are epoch milliseconds. -/
structure FoodMemory where
  id : Nat
  original_image_url : String := ""
  cropped_image_url : String := ""
  latitude : ℝ
  longitude : ℝ
  created_at : Int := 0
  dish_name : Option String := none
  restaurant_name : Option String
  photo_taken_at : Option Int := none
  friend_tags : Option (List String) := none
  personal_note : Option String := none
  google_maps_url : Option String := none
  neighborhood : Option String := none

/-- JavaScript `Math.atan2 y x` (real-valued; the signed-zero distinction of
floating point does not exist in `ℝ`, and the function is only applied with
a nonnegative second argument in this code). -/
noncomputable def atan2 (y x : ℝ) : ℝ :=
  if 0 < x then Real.arctan (y / x)
  else if x < 0 then
    (if 0 ≤ y then Real.arctan (y / x) + Real.pi else Real.arctan (y / x) - Real.pi)
  else if 0 < y then Real.pi / 2
  else if y < 0 then -(Real.pi / 2)
  else 0

/-- `getDistanceMeters` from `app/FoodMemoryApp.tsx`: Haversine distance on a
spherical Earth of radius 6371000 meters. -/
noncomputable def getDistanceMeters (lat1 lon1 lat2 lon2 : ℝ) : ℝ :=
  let R : ℝ := 6371000
  let dLat := (lat2 - lat1) * Real.pi / 180
  let dLon := (lon2 - lon1) * Real.pi / 180
  let a := Real.sin (dLat / 2) * Real.sin (dLat / 2) +
      Real.cos (lat1 * Real.pi / 180) * Real.cos (lat2 * Real.pi / 180) *
      (Real.sin (dLon / 2) * Real.sin (dLon / 2))
  let c := 2 * atan2 (Real.sqrt a) (Real.sqrt (1 - a))
  R * c

/-- The `key` string of a `DishGroup`. The source builds
`` `single-${memory.id}` `` or `` `group-${name}-${lat}-${lon}` ``; number
to string conversion is not available on `ℝ`, so the key is kept as a
structured value holding exactly the interpolated components. -/
inductive GroupKey where
  | single (id : Nat)
  | group (name : String) (latitude longitude : ℝ)

/-- The `DishGroup` interface from `app/FoodMemoryApp.tsx`. -/
structure DishGroup where
  key : GroupKey
  restaurant_name : Option String
  latitude : ℝ
  longitude : ℝ
  memories : List FoodMemory

/-- The group-matching test from the `groups.find(...)` call inside
`dishGroups`: same restaurant name (strict equality) and representative
coordinate within 50 meters of the record's coordinate. -/
def groupMatches (m : FoodMemory) (g : DishGroup) : Prop :=
  g.restaurant_name = m.restaurant_name ∧
    getDistanceMeters g.latitude g.longitude m.latitude m.longitude ≤ 50

attribute [local instance] Classical.propDecidable

/-- Functional rendering of `groups.find(...)` followed by
`existingGroup.memories.push(memory)`: append `m` to the first group
matching it, returning `none` when no group matches. -/
noncomputable def pushToMatch (m : FoodMemory) : List DishGroup → Option (List DishGroup)
  | [] => none
  | g :: gs =>
    if groupMatches m g then
      some ({ g with memories := g.memories ++ [m] } :: gs)
    else
      match pushToMatch m gs with
      | some gs2 => some (g :: gs2)
      | none => none

/-- One iteration of the `for (const memory of foodMemories)` loop inside
`dishGroups`: a record with a falsy restaurant name becomes an unconditional
singleton group; otherwise the record is pushed onto the first matching
group, and a new group keyed by (name, latitude, longitude) is created when
none matches. -/
noncomputable def groupStep (groups : List DishGroup) (m : FoodMemory) : List DishGroup :=
  match truthyStr m.restaurant_name with
  | false =>
    groups ++ [⟨GroupKey.single m.id, none, m.latitude, m.longitude, [m]⟩]
  | true =>
    match pushToMatch m groups with
    | some gs => gs
    | none =>
      groups ++ [⟨GroupKey.group (m.restaurant_name.getD "") m.latitude m.longitude,
        m.restaurant_name, m.latitude, m.longitude, [m]⟩]

/-- The `dishGroups` memo from `app/FoodMemoryApp.tsx`: fold the loop body
over the record list starting from an empty group list. -/
noncomputable def dishGroups (foodMemories : List FoodMemory) : List DishGroup :=
  foodMemories.foldl groupStep []

/-- `new Date(m.photo_taken_at || m.created_at).getTime()` on the timestamp
model: the capture timestamp when present, else the creation timestamp. -/
def memoryDate (m : FoodMemory) : Int :=
  m.photo_taken_at.getD m.created_at

/-- `Math.max(...group.memories.map(...))` over a group's member dates.
Groups produced by `dishGroups` are always nonempty; the empty case (where
JavaScript would yield `-Infinity`) is given an arbitrary value. -/
def groupDate (g : DishGroup) : Int :=
  match g.memories.map memoryDate with
  | [] => 0
  | d :: ds => ds.foldl max d

/-- Stable insertion of a group into a list sorted by `groupDate`
descending: `g` goes in front of the first group with a strictly smaller
date, so equal-date groups keep their original relative order — the result
a stable comparator sort (as `Array.prototype.sort` with the comparator
`(a, b) => bDate - aDate` performs) would produce. -/
def insertByDate (g : DishGroup) : List DishGroup → List DishGroup
  | [] => [g]
  | h :: t =>
    if groupDate h < groupDate g then g :: h :: t
    else h :: insertByDate g t

/-- The `sortedDishGroups` memo from `app/FoodMemoryApp.tsx`: a copy of the
group list stably sorted descending by the most recent member date. -/
def sortedDishGroups (groups : List DishGroup) : List DishGroup :=
  groups.foldr insertByDate []

/-! ## Server data model (`app/api/...`) -/

/-- A nearby-place candidate returned by `findNearbyRestaurants` in
`app/api/upload/route.ts`: a `(name, place_id)` pair. -/
structure Candidate where
  name : String
  place_id : String

/-- A Google-Maps search link
`https://www.google.com/maps/search/?api=1&query=<q>&query_place_id=<id>`,
kept as its two query components (`encodeURIComponent` is an external
injective encoding and is left implicit). -/
structure MapsLink where
  query : String
  place_id : String
deriving DecidableEq

/-- Result of `JSON.parse` on the vision model's (markdown-stripped)
response content: either a parse exception, or an object whose `dish` and
`restaurant` fields are read (a missing field reads as `none`). -/
inductive ParseOutcome where
  | parseFail
  | parsed (dish : Option String) (restaurant : Option String)

/-- Outcome of the OpenAI chat-completions call inside
`identifyDishAndRestaurant`: the fetch (or `response.json()`) threw, or the
response had a non-success status, or it succeeded with the given
`choices[0].message.content` (already trimmed; `none` when absent) whose
JSON parse would give `parse`. -/
inductive VisionOutcome where
  | transportError
  | httpFailure
  | ok (content : Option String) (parse : ParseOutcome)

/-- The row shape of the `food_memories` table (see the SQL schema and the
`INSERT`/`UPDATE` statements). -/
structure MemoryRow where
  id : Nat
  original_image_url : String := ""
  cropped_image_url : String := ""
  latitude : ℝ
  longitude : ℝ
  created_at : Int := 0
  dish_name : Option String := none
  restaurant_name : Option String := none
  photo_taken_at : Option Int := none
  friend_tags : Option (List String) := none
  personal_note : Option String := none
  google_maps_url : Option MapsLink := none
  neighborhood : Option String := none
  borough : Option String := none

/-- The `buildMapsUrl` helper inside `identifyDishAndRestaurant`: a falsy
name gives `null`; otherwise the first candidate with exactly that name
supplies the link, and no match gives `null`. -/
def buildMapsUrl (restaurants : List Candidate) (name : Option String) : Option MapsLink :=
  match truthyStr name with
  | false => none
  | true =>
    match restaurants.find? (fun r => r.name == name.getD "") with
    | some m => some ⟨m.name, m.place_id⟩
    | none => none

/-- Result record of `identifyDishAndRestaurant`. -/
structure IdentifyResult where
  dishName : Option String
  restaurantName : Option String
  googleMapsUrl : Option MapsLink

/-- `identifyDishAndRestaurant` from `app/api/upload/route.ts`, as a
function of the configured-API-key flag, the vision-call outcome and the
candidate list.  The branch structure (missing key shortcut, empty- versus
nonempty-candidate prompts, `!response.ok`, falsy content, JSON parse
failure, and the surrounding `try`/`catch`) is translated from the source;
the base64 encoding and prompt construction have no effect on the result
and are dropped. -/
def identifyDishAndRestaurant (apiKeySet : Bool) (outcome : VisionOutcome)
    (restaurants : List Candidate) : IdentifyResult :=
  match apiKeySet with
  | false =>
    match restaurants with
    | [] => ⟨none, none, none⟩
    | first :: _ => ⟨none, some first.name, some ⟨first.name, first.place_id⟩⟩
  | true =>
    match restaurants with
    | [] =>
      match outcome with
      | .transportError => ⟨none, none, none⟩
      | .httpFailure => ⟨none, none, none⟩
      | .ok content _ => ⟨jsOr content none, none, none⟩
    | first :: _ =>
      match outcome with
      | .transportError =>
        ⟨none, some first.name, buildMapsUrl restaurants (some first.name)⟩
      | .httpFailure =>
        ⟨none, some first.name, buildMapsUrl restaurants (some first.name)⟩
      | .ok content parse =>
        match truthyStr content with
        | false =>
          ⟨none, some first.name, buildMapsUrl restaurants (some first.name)⟩
        | true =>
          match parse with
          | .parseFail =>
            ⟨content, some first.name, buildMapsUrl restaurants (some first.name)⟩
          | .parsed dish restaurant =>
            let restaurantName := jsOr restaurant (jsOr (some first.name) none)
            ⟨jsOr dish none, restaurantName, buildMapsUrl restaurants restaurantName⟩

/-- Outcome of one remove.bg request for one `type` hint: success with
processed bytes (bytes are abstract tokens), a non-success HTTP status, or
a thrown transport error. -/
inductive BgAttempt where
  | ok (bytes : Nat)
  | httpFail
  | transportFail

/-- `removeBackgroundWithRemoveBg` from `app/api/upload/route.ts`: try the
`'auto'` hint, on any failure try the `'product'` hint, and return `null`
when both fail. -/
def removeBackgroundWithRemoveBg (auto product : BgAttempt) : Option Nat :=
  match auto with
  | .ok b => some b
  | _ =>
    match product with
    | .ok b => some b
    | _ => none

/-- The parsed multipart form of a `POST /api/upload` request: presence of
the image file, and the `parseFloat` results of the coordinate fields
(`none` models `NaN`). -/
structure UploadForm where
  original : Bool
  latitude : Option ℝ
  longitude : Option ℝ
  photoTakenAt : Option Int := none

/-- External-collaborator outcomes consumed by one upload request. -/
structure PipelineEnv where
  openaiKeySet : Bool := false
  restaurants : List Candidate := []
  bgAuto : BgAttempt := .httpFail
  bgProduct : BgAttempt := .httpFail
  vision : VisionOutcome := .transportError
  originalBytes : Nat := 0
  originalUrl : String := ""
  croppedUrl : String := ""
  now : Int := 0
  newId : Nat := 1

/-- Result of the upload `POST` handler: a 400 validation rejection, or a
created row together with the bytes uploaded as the display ("cropped")
image and the transient nearby-restaurant name list. Storage and database
throws (500, no row) are outside the model. -/
inductive UploadOutcome where
  | badRequest
  | created (row : MemoryRow) (croppedBytes : Nat) (nearby : List String)

/-- The `POST` handler of `app/api/upload/route.ts` (the variant that runs
the full pipeline): reject with 400 iff the image is missing or a
coordinate parsed to `NaN`; otherwise run background removal and
identification and insert the row. -/
def uploadPOST (f : UploadForm) (env : PipelineEnv) : UploadOutcome :=
  match f.original, f.latitude, f.longitude with
  | true, some lat, some lon =>
    let bgRemoved := removeBackgroundWithRemoveBg env.bgAuto env.bgProduct
    let idr := identifyDishAndRestaurant env.openaiKeySet env.vision env.restaurants
    let croppedBytes := bgRemoved.getD env.originalBytes
    UploadOutcome.created
      { id := env.newId
        original_image_url := env.originalUrl
        cropped_image_url := env.croppedUrl
        latitude := lat
        longitude := lon
        created_at := env.now
        dish_name := idr.dishName
        restaurant_name := idr.restaurantName
        photo_taken_at := f.photoTakenAt
        friend_tags := none
        personal_note := none
        google_maps_url := idr.googleMapsUrl
        neighborhood := none
        borough := none }
      croppedBytes
      (env.restaurants.map (fun r => r.name))
  | _, _, _ => UploadOutcome.badRequest

/-! ## Backfill job (`app/api/backfill-locations/route.ts`) -/

/-- The `NEIGHBORHOOD_OVERRIDES` rename table. -/
def NEIGHBORHOOD_OVERRIDES : List (String × String) :=
  [("Central Park West Historic District", "Upper West Side"),
   ("Flatiron District", "Flatiron")]

/-- `normalizeNeighborhood`: override-table lookup with fallthrough. -/
def normalizeNeighborhood (name : String) : String :=
  match NEIGHBORHOOD_OVERRIDES.find? (fun p => p.1 == name) with
  | some p => p.2
  | none => name

/-- Result of `reverseGeocodeNeighborhood` (an external call): the
neighborhood and borough components, `none` on any failure. -/
structure GeoResult where
  neighborhood : Option String
  borough : Option String

/-- Effect on a single row of one `UPDATE ... SET neighborhood = new WHERE
neighborhood = old` statement of the rename pass. -/
def renameOne (p : String × String) (r : MemoryRow) : MemoryRow :=
  if r.neighborhood == some p.1 then { r with neighborhood := some p.2 } else r

/-- The rename pass of the backfill `POST`: the override-table `UPDATE`
statements applied in order, each touching every row. -/
def renamePass (db : List MemoryRow) : List MemoryRow :=
  NEIGHBORHOOD_OVERRIDES.foldl (fun db p => db.map (renameOne p)) db

/-- Effect of the geocoding loop of the backfill `POST` on a single row:
rows with both fields non-null are not selected; selected rows receive
`COALESCE(new, old)` for each field, guarded by `if (neighborhood ||
borough)`, where the geocoded neighborhood is normalized and a falsy
geocoded neighborhood becomes `null`. -/
def backfillRow (geo : ℝ → ℝ → GeoResult) (r : MemoryRow) : MemoryRow :=
  match r.neighborhood, r.borough with
  | some _, some _ => r
  | _, _ =>
    let res := geo r.latitude r.longitude
    let neighborhood : Option String :=
      match truthyStr res.neighborhood with
      | true => some (normalizeNeighborhood (res.neighborhood.getD ""))
      | false => none
    let borough := res.borough
    match truthyStr neighborhood || truthyStr borough with
    | true =>
      { r with
        neighborhood := neighborhood.orElse (fun _ => r.neighborhood)
        borough := borough.orElse (fun _ => r.borough) }
    | false => r

/-- The backfill `POST` of `app/api/backfill-locations/route.ts` on the
whole table (row ids are unique, so the per-row `UPDATE ... WHERE id`
statements act row-locally): the rename pass, then the geocoding pass. -/
def backfillLocations (geo : ℝ → ℝ → GeoResult) (db : List MemoryRow) : List MemoryRow :=
  (renamePass db).map (backfillRow geo)

/-! ## Patch endpoint (`app/api/memories/[id]/route.ts`, authenticated
variant) -/

/-- A field of a parsed JSON `PATCH` body: absent from the payload
(JavaScript `undefined`), present as JSON `null`, or present with a
value. -/
inductive JVal (α : Type) where
  | absent
  | null
  | val (a : α)

/-- `x ?? null` followed by SQL parameter binding: both `undefined` and
`null` bind as SQL `NULL`. -/
def jsToSql {α : Type} : JVal α → Option α
  | .absent => none
  | .null => none
  | .val a => some a

/-- The destructured `PATCH` body
`const { friend_tags, personal_note, dish_name, restaurant_name } = body`. -/
structure PatchBody where
  friend_tags : JVal (List String) := .absent
  personal_note : JVal String := .absent
  dish_name : JVal String := .absent
  restaurant_name : JVal String := .absent

/-- The `PATCH` handler's effect on the matched row, given the external
`lookupGoogleMapsUrl` place search as an oracle.  `restaurant_name !==
undefined` selects the re-resolution branch, which also rewrites
`restaurant_name` (`restaurant_name || null`) and `google_maps_url`; both
branches write `friend_tags`, `personal_note` and (in the re-resolution
branch and the default branch alike) `dish_name` as `payload ?? null`. -/
def patchUpdate (lookup : String → ℝ → ℝ → Option MapsLink)
    (body : PatchBody) (row : MemoryRow) : MemoryRow :=
  match body.restaurant_name with
  | .absent =>
    { row with
      friend_tags := jsToSql body.friend_tags
      personal_note := jsToSql body.personal_note
      dish_name := jsToSql body.dish_name }
  | rn =>
    let googleMapsUrl : Option MapsLink :=
      match rn with
      | .val s => if s == "" then none else lookup s row.latitude row.longitude
      | _ => none
    let newName : Option String :=
      match rn with
      | .val s => if s == "" then none else some s
      | _ => none
    { row with
      friend_tags := jsToSql body.friend_tags
      personal_note := jsToSql body.personal_note
      dish_name := jsToSql body.dish_name
      restaurant_name := newName
      google_maps_url := googleMapsUrl }

/-! ## Derived definitions used by the statements -/

/-- All member records of a group list, in group order. -/
def flattenGroups (gs : List DishGroup) : List FoodMemory :=
  (gs.map DishGroup.memories).flatten

/-- Invariant of every group produced by `dishGroups`: the representative
coordinate is the first member's coordinate, and the group either carries a
truthy restaurant name shared exactly by all members, or is a singleton
(with a `null` group name) around one record with a falsy restaurant
name. -/
def GroupInv (g : DishGroup) : Prop :=
  (∃ m0 rest, g.memories = m0 :: rest ∧
      g.latitude = m0.latitude ∧ g.longitude = m0.longitude) ∧
  ((∃ n, n ≠ "" ∧ g.restaurant_name = some n ∧
      ∀ m ∈ g.memories, m.restaurant_name = some n) ∨
    (g.restaurant_name = none ∧
      ∃ m, g.memories = [m] ∧ truthyStr m.restaurant_name = false))

/-- The rename pass as a per-row function (the override `UPDATE` statements
applied in order to one row). -/
def renameRow (r : MemoryRow) : MemoryRow :=
  NEIGHBORHOOD_OVERRIDES.foldl (fun r p => renameOne p r) r

/-! ## Concrete data for boundary tests and witnesses -/

/-- Latitude (in degrees) of the point exactly 49 meters due north of the
origin on the spherical Earth model. -/
noncomputable def lat49 : ℝ := 49 / 6371000 * 180 / Real.pi

/-- Latitude (in degrees) of the point exactly 51 meters due north of the
origin on the spherical Earth model. -/
noncomputable def lat51 : ℝ := 51 / 6371000 * 180 / Real.pi

/-- Record at the origin with restaurant name "A". -/
noncomputable def memA0 : FoodMemory :=
  { id := 1, latitude := 0, longitude := 0, restaurant_name := some "A" }

/-- A second record at the origin with restaurant name "A". -/
noncomputable def memA0b : FoodMemory :=
  { id := 2, latitude := 0, longitude := 0, restaurant_name := some "A" }

/-- Record 49 meters from the origin with restaurant name "A". -/
noncomputable def memA49 : FoodMemory :=
  { id := 3, latitude := lat49, longitude := 0, restaurant_name := some "A" }

/-- Record 51 meters from the origin with restaurant name "A". -/
noncomputable def memA51 : FoodMemory :=
  { id := 4, latitude := lat51, longitude := 0, restaurant_name := some "A" }

/-- Null-restaurant record: captured at time 100, uploaded at time 200. -/
def memN1 : FoodMemory :=
  { id := 1, latitude := 0, longitude := 0, restaurant_name := none,
    created_at := 200, photo_taken_at := some 100 }

/-- Null-restaurant record at the same coordinates: captured at time 200,
uploaded at time 100 (capture order is the reverse of creation order). -/
def memN2 : FoodMemory :=
  { id := 2, latitude := 0, longitude := 0, restaurant_name := none,
    created_at := 100, photo_taken_at := some 200 }

/-- The singleton group `dishGroups` builds for `memN1`. -/
def gN1 : DishGroup := ⟨GroupKey.single 1, none, 0, 0, [memN1]⟩

/-- A nearby-place candidate named "A". -/
def candA : Candidate := ⟨"A", "p1"⟩

/-- Upload form with latitude 200, outside the legal range [-90, 90]. -/
def form200 : UploadForm := { original := true, latitude := some 200, longitude := some 0 }

/-- Well-formed upload form at the origin. -/
def formOK : UploadForm := { original := true, latitude := some 0, longitude := some 0 }

/-- Pipeline environment where every external collaborator fails. -/
def env0 : PipelineEnv := {}

/-- Pipeline environment with one nearby candidate and no OpenAI key. -/
def envA : PipelineEnv := { restaurants := [candA] }

/-- The row `uploadPOST formOK envA` inserts. -/
def rowA : MemoryRow :=
  { id := 1, latitude := 0, longitude := 0,
    restaurant_name := some "A", google_maps_url := some ⟨"A", "p1"⟩ }

/-- Geocode oracle returning the same non-null pair everywhere. -/
def geoNoHo : ℝ → ℝ → GeoResult := fun _ _ => ⟨some "NoHo", some "Manhattan"⟩

/-- Geocode oracle returning null everywhere. -/
def geoNone : ℝ → ℝ → GeoResult := fun _ _ => ⟨none, none⟩

/-- Stored row with a non-null neighborhood and a null borough. -/
def rowSoHo : MemoryRow :=
  { id := 1, latitude := 0, longitude := 0,
    neighborhood := some "SoHo", borough := none }

/-- Stored row whose fields are all populated. -/
def rowFull : MemoryRow :=
  { id := 1, latitude := 0, longitude := 0, dish_name := some "Ramen",
    restaurant_name := some "A", friend_tags := some ["Sam"],
    personal_note := some "yum" }

/-- A `PATCH` body with every field absent. -/
def emptyBody : PatchBody := {}

/-- Place lookup oracle that never finds a match. -/
def lookup0 : String → ℝ → ℝ → Option MapsLink := fun _ _ _ => none

/-! ## Haversine facts -/

lemma getDistanceMeters_def (lat1 lon1 lat2 lon2 : ℝ) :
    getDistanceMeters lat1 lon1 lat2 lon2 =
      6371000 * (2 * atan2
        (Real.sqrt (Real.sin ((lat2 - lat1) * Real.pi / 180 / 2) *
            Real.sin ((lat2 - lat1) * Real.pi / 180 / 2) +
          Real.cos (lat1 * Real.pi / 180) * Real.cos (lat2 * Real.pi / 180) *
          (Real.sin ((lon2 - lon1) * Real.pi / 180 / 2) *
            Real.sin ((lon2 - lon1) * Real.pi / 180 / 2))))
        (Real.sqrt (1 - (Real.sin ((lat2 - lat1) * Real.pi / 180 / 2) *
            Real.sin ((lat2 - lat1) * Real.pi / 180 / 2) +
          Real.cos (lat1 * Real.pi / 180) * Real.cos (lat2 * Real.pi / 180) *
          (Real.sin ((lon2 - lon1) * Real.pi / 180 / 2) *
            Real.sin ((lon2 - lon1) * Real.pi / 180 / 2)))))) := rfl

/-- Along a meridian the Haversine formula gives exactly the arc length
`R * φ` for a latitude difference of `φ` radians. -/
lemma getDistanceMeters_meridian (φ : ℝ) (h0 : 0 ≤ φ) (hπ : φ < Real.pi) :
    getDistanceMeters 0 0 (φ * 180 / Real.pi) 0 = 6371000 * φ := by
  have hpi := Real.pi_pos
  have hπ2 : φ / 2 < Real.pi / 2 := by linarith
  have h02 : 0 ≤ φ / 2 := by linarith
  have hsin : 0 ≤ Real.sin (φ / 2) :=
    Real.sin_nonneg_of_nonneg_of_le_pi h02 (by linarith)
  have hcos : 0 < Real.cos (φ / 2) :=
    Real.cos_pos_of_mem_Ioo ⟨by linarith, hπ2⟩
  rw [getDistanceMeters_def]
  have key : (φ * 180 / Real.pi - 0) * Real.pi / 180 = φ := by
    have hpne := Real.pi_ne_zero
    field_simp
  rw [key]
  have k2 : ((0 : ℝ) - 0) * Real.pi / 180 = 0 := by ring
  rw [k2]
  simp only [zero_div, Real.sin_zero, mul_zero, add_zero, zero_mul, Real.cos_zero, one_mul]
  rw [Real.sqrt_mul_self hsin]
  have h1a : 1 - Real.sin (φ / 2) * Real.sin (φ / 2) =
      Real.cos (φ / 2) * Real.cos (φ / 2) := by
    rw [← Real.sin_sq_add_cos_sq (φ / 2)]; ring
  rw [h1a, Real.sqrt_mul_self hcos.le]
  unfold atan2
  rw [if_pos hcos]
  rw [← Real.tan_eq_sin_div_cos, Real.arctan_tan (by linarith) hπ2]
  ring

lemma getDistanceMeters_lat49 : getDistanceMeters 0 0 lat49 0 = 49 := by
  have hπ : (49 : ℝ) / 6371000 < Real.pi := by
    have h3 := Real.pi_gt_three
    nlinarith
  have h := getDistanceMeters_meridian (49 / 6371000) (by norm_num) hπ
  unfold lat49
  rw [h]; norm_num

lemma getDistanceMeters_lat51 : getDistanceMeters 0 0 lat51 0 = 51 := by
  have hπ : (51 : ℝ) / 6371000 < Real.pi := by
    have h3 := Real.pi_gt_three
    nlinarith
  have h := getDistanceMeters_meridian (51 / 6371000) (by norm_num) hπ
  unfold lat51
  rw [h]; norm_num

lemma getDistanceMeters_zero : getDistanceMeters 0 0 0 0 = 0 := by
  have h := getDistanceMeters_meridian 0 le_rfl Real.pi_pos
  simpa using h

/-! ## Truthiness facts -/

lemma truthyStr_eq_true_iff (o : Option String) :
    truthyStr o = true ↔ ∃ s, o = some s ∧ s ≠ "" := by
  cases o with
  | none => simp [truthyStr]
  | some s => simp [truthyStr]

lemma truthyStr_some_false {s : String} (h : truthyStr (some s) = false) : s = "" := by
  simpa [truthyStr] using h

/-! ## `pushToMatch` characterization -/

lemma pushToMatch_eq_none_iff (m : FoodMemory) (gs : List DishGroup) :
    pushToMatch m gs = none ↔ ∀ g ∈ gs, ¬ groupMatches m g := by
  induction gs with
  | nil => simp [pushToMatch]
  | cons g gs ih =>
    by_cases h : groupMatches m g
    · rw [pushToMatch, if_pos h]
      simp [h]
    · rw [pushToMatch, if_neg h]
      cases h2 : pushToMatch m gs with
      | none =>
        simp only [h2, true_iff] at ih ⊢
        simpa [h] using ih
      | some gs2 =>
        simp only [List.mem_cons]
        constructor
        · intro hc; exact absurd hc (by simp)
        · intro hall
          have : pushToMatch m gs = none := (ih).mpr (fun g' hg' => hall g' (Or.inr hg'))
          rw [this] at h2; exact absurd h2 (by simp)

lemma pushToMatch_eq_some (m : FoodMemory) :
    ∀ (gs gs' : List DishGroup), pushToMatch m gs = some gs' →
      ∃ gs1 g gs2, gs = gs1 ++ g :: gs2 ∧ (∀ g' ∈ gs1, ¬ groupMatches m g') ∧
        groupMatches m g ∧
        gs' = gs1 ++ { g with memories := g.memories ++ [m] } :: gs2 := by
  intro gs
  induction gs with
  | nil => intro gs' h; simp [pushToMatch] at h
  | cons g0 gs ih =>
    intro gs' h
    by_cases hm : groupMatches m g0
    · rw [pushToMatch, if_pos hm] at h
      refine ⟨[], g0, gs, by simp, by simp, hm, ?_⟩
      simpa using h.symm
    · rw [pushToMatch, if_neg hm] at h
      cases h2 : pushToMatch m gs with
      | none => rw [h2] at h; exact absurd h (by simp)
      | some gs2 =>
        rw [h2] at h
        obtain ⟨gs1, g, gs2', heq, hno, hmt, hres⟩ := ih gs2 h2
        refine ⟨g0 :: gs1, g, gs2', by simp [heq], ?_, hmt, ?_⟩
        · intro g' hg'
          rcases List.mem_cons.mp hg' with rfl | hg'
          · exact hm
          · exact hno g' hg'
        · have : gs' = g0 :: gs2 := by simpa using h.symm
          simp [this, hres]

/-! ## The grouping fold and its invariant -/

lemma dishGroups_append (ms : List FoodMemory) (m : FoodMemory) :
    dishGroups (ms ++ [m]) = groupStep (dishGroups ms) m := by
  simp [dishGroups, List.foldl_append]

lemma groupStep_inv (gs : List DishGroup) (m : FoodMemory)
    (h : ∀ g ∈ gs, GroupInv g) : ∀ g ∈ groupStep gs m, GroupInv g := by
  unfold groupStep
  cases htr : truthyStr m.restaurant_name with
  | false =>
    intro g hg
    rcases List.mem_append.mp hg with hg | hg
    · exact h g hg
    · rcases List.mem_singleton.mp hg with rfl
      exact ⟨⟨m, [], rfl, rfl, rfl⟩, Or.inr ⟨rfl, m, rfl, htr⟩⟩
  | true =>
    obtain ⟨s, hs, hne⟩ := (truthyStr_eq_true_iff m.restaurant_name).mp htr
    cases hp : pushToMatch m gs with
    | none =>
      intro g hg
      rcases List.mem_append.mp hg with hg | hg
      · exact h g hg
      · rcases List.mem_singleton.mp hg with rfl
        refine ⟨⟨m, [], rfl, rfl, rfl⟩, Or.inl ⟨s, hne, hs, ?_⟩⟩
        intro m' hm'
        rcases List.mem_singleton.mp hm' with rfl
        exact hs
    | some gs' =>
      obtain ⟨gs1, g0, gs2, heq, _, hmt, hres⟩ := pushToMatch_eq_some m gs gs' hp
      intro g hg
      rw [hres] at hg
      rcases List.mem_append.mp hg with hg | hg
      · exact h g (heq ▸ List.mem_append.mpr (Or.inl hg))
      · rcases List.mem_cons.mp hg with rfl | hg
        · have hg0 : GroupInv g0 := h g0 (heq ▸ List.mem_append.mpr (Or.inr (List.mem_cons_self _ _)))
          obtain ⟨⟨m0, rest, hmem, hla, hlo⟩, hnames⟩ := hg0
          refine ⟨⟨m0, rest ++ [m], by simp [hmem], hla, hlo⟩, ?_⟩
          rcases hnames with ⟨n, hn, hgn, hall⟩ | ⟨hgn, _, _, _⟩
          · refine Or.inl ⟨n, hn, hgn, ?_⟩
            intro m' hm'
            simp only [List.mem_append, List.mem_singleton] at hm'
            rcases hm' with hm' | rfl
            · exact hall m' hm'
            · rw [← hmt.1, hgn]
          · exact absurd (hgn ▸ hmt.1) (by rw [hs]; simp)
        · exact h g (heq ▸ List.mem_append.mpr (Or.inr (List.mem_cons.mpr (Or.inr hg))))

lemma dishGroups_inv (ms : List FoodMemory) : ∀ g ∈ dishGroups ms, GroupInv g := by
  induction ms using List.reverseRecOn with
  | nil => simp [dishGroups]
  | append_singleton ms m ih =>
    rw [dishGroups_append]
    exact groupStep_inv _ _ ih

lemma dishGroups_no_empty_name (ms : List FoodMemory) :
    ∀ g ∈ dishGroups ms, g.restaurant_name ≠ some "" := by
  intro g hg
  rcases (dishGroups_inv ms g hg).2 with ⟨n, hn, hgn, _⟩ | ⟨hgn, _⟩
  · rw [hgn]; simpa using hn
  · rw [hgn]; simp

/-! ## Flattening: grouping is a partition -/

lemma flattenGroups_append (gs1 gs2 : List DishGroup) :
    flattenGroups (gs1 ++ gs2) = flattenGroups gs1 ++ flattenGroups gs2 := by
  simp [flattenGroups]

lemma flattenGroups_groupStep (gs : List DishGroup) (m : FoodMemory) :
    (flattenGroups (groupStep gs m)).Perm (flattenGroups gs ++ [m]) := by
  unfold groupStep
  cases htr : truthyStr m.restaurant_name with
  | false =>
    rw [flattenGroups_append]
    simp [flattenGroups]
  | true =>
    cases hp : pushToMatch m gs with
    | none =>
      rw [flattenGroups_append]
      simp [flattenGroups]
    | some gs' =>
      obtain ⟨gs1, g0, gs2, heq, _, _, hres⟩ := pushToMatch_eq_some m gs gs' hp
      subst heq
      rw [hres]
      simp only [flattenGroups, List.map_append, List.flatten_append, List.map_cons,
        List.flatten_cons, List.append_assoc, List.singleton_append]
      refine List.Perm.append_left _ (List.Perm.append_left _ ?_)
      exact @List.perm_append_comm _ [m] _

lemma dishGroups_flatten_perm (ms : List FoodMemory) :
    (flattenGroups (dishGroups ms)).Perm ms := by
  induction ms using List.reverseRecOn with
  | nil => simp [dishGroups, flattenGroups]
  | append_singleton ms m ih =>
    rw [dishGroups_append]
    exact (flattenGroups_groupStep _ m).trans (ih.append (List.Perm.refl [m]))

lemma dishGroups_nonempty (ms : List FoodMemory) :
    ∀ g ∈ dishGroups ms, g.memories ≠ [] := by
  intro g hg
  obtain ⟨⟨m0, rest, hmem, _, _⟩, _⟩ := dishGroups_inv ms g hg
  rw [hmem]; simp

/-! ## Insertion-sort lemmas for `sortedDishGroups` -/

lemma insertByDate_perm (g : DishGroup) (l : List DishGroup) :
    (insertByDate g l).Perm (g :: l) := by
  induction l with
  | nil => simp [insertByDate]
  | cons h t ih =>
    rw [insertByDate]
    by_cases hc : groupDate h < groupDate g
    · rw [if_pos hc]
    · rw [if_neg hc]
      exact (ih.cons h).trans (List.Perm.swap g h t)

lemma insertByDate_sorted (g : DishGroup) (l : List DishGroup)
    (hl : l.Sorted (fun a b => groupDate b ≤ groupDate a)) :
    (insertByDate g l).Sorted (fun a b => groupDate b ≤ groupDate a) := by
  induction l with
  | nil => simp [insertByDate]
  | cons h t ih =>
    rw [List.sorted_cons] at hl
    obtain ⟨hh, ht⟩ := hl
    rw [insertByDate]
    by_cases hc : groupDate h < groupDate g
    · rw [if_pos hc, List.sorted_cons]
      refine ⟨?_, List.sorted_cons.mpr ⟨hh, ht⟩⟩
      intro b hb
      rcases List.mem_cons.mp hb with rfl | hb
      · exact hc.le
      · exact (hh b hb).trans hc.le
    · rw [if_neg hc, List.sorted_cons]
      refine ⟨?_, ih ht⟩
      intro b hb
      have hb' := (insertByDate_perm g t).mem_iff.mp hb
      rcases List.mem_cons.mp hb' with rfl | hb'
      · exact le_of_not_lt hc
      · exact hh b hb'

lemma sortedDishGroups_perm_aux (gs : List DishGroup) : (sortedDishGroups gs).Perm gs := by
  induction gs with
  | nil => simp [sortedDishGroups]
  | cons g gs ih =>
    have hstep : sortedDishGroups (g :: gs) = insertByDate g (sortedDishGroups gs) := rfl
    rw [hstep]
    exact (insertByDate_perm g _).trans (ih.cons g)

lemma sortedDishGroups_sorted_aux (gs : List DishGroup) :
    (sortedDishGroups gs).Sorted (fun a b => groupDate b ≤ groupDate a) := by
  induction gs with
  | nil => simp [sortedDishGroups]
  | cons g gs ih => exact insertByDate_sorted g _ ih

/-! ## Concrete evaluations around the 50-meter boundary -/

lemma dishGroups_one_A : dishGroups [memA0] =
    [⟨GroupKey.group "A" 0 0, some "A", 0, 0, [memA0]⟩] := rfl

lemma matches_A0b : groupMatches memA0b ⟨GroupKey.group "A" 0 0, some "A", 0, 0, [memA0]⟩ := by
  constructor
  · rfl
  · show getDistanceMeters 0 0 0 0 ≤ 50
    rw [getDistanceMeters_zero]; norm_num

lemma matches_A49 : groupMatches memA49 ⟨GroupKey.group "A" 0 0, some "A", 0, 0, [memA0]⟩ := by
  constructor
  · rfl
  · show getDistanceMeters 0 0 lat49 0 ≤ 50
    rw [getDistanceMeters_lat49]; norm_num

lemma not_matches_A51 : ¬ groupMatches memA51 ⟨GroupKey.group "A" 0 0, some "A", 0, 0, [memA0]⟩ := by
  rintro ⟨-, hd⟩
  have hd' : getDistanceMeters 0 0 lat51 0 ≤ 50 := hd
  rw [getDistanceMeters_lat51] at hd'
  norm_num at hd'

lemma dishGroups_two_A0 : (dishGroups [memA0, memA0b]).length = 1 := by
  have hstep : dishGroups [memA0, memA0b] = groupStep (dishGroups [memA0]) memA0b :=
    dishGroups_append [memA0] memA0b
  have hpush : pushToMatch memA0b [⟨GroupKey.group "A" 0 0, some "A", 0, 0, [memA0]⟩] =
      some [⟨GroupKey.group "A" 0 0, some "A", 0, 0, [memA0, memA0b]⟩] := by
    rw [pushToMatch, if_pos matches_A0b]
    rfl
  rw [hstep, dishGroups_one_A]
  simp only [groupStep, show truthyStr memA0b.restaurant_name = true from rfl, hpush]
  rfl

lemma dishGroups_two_A49 : (dishGroups [memA0, memA49]).length = 1 := by
  have hstep : dishGroups [memA0, memA49] = groupStep (dishGroups [memA0]) memA49 :=
    dishGroups_append [memA0] memA49
  have hpush : pushToMatch memA49 [⟨GroupKey.group "A" 0 0, some "A", 0, 0, [memA0]⟩] =
      some [⟨GroupKey.group "A" 0 0, some "A", 0, 0, [memA0, memA49]⟩] := by
    rw [pushToMatch, if_pos matches_A49]
    rfl
  rw [hstep, dishGroups_one_A]
  simp only [groupStep, show truthyStr memA49.restaurant_name = true from rfl, hpush]
  rfl

lemma dishGroups_two_A51 : (dishGroups [memA0, memA51]).length = 2 := by
  have hstep : dishGroups [memA0, memA51] = groupStep (dishGroups [memA0]) memA51 :=
    dishGroups_append [memA0] memA51
  have hpush : pushToMatch memA51 [⟨GroupKey.group "A" 0 0, some "A", 0, 0, [memA0]⟩] =
      none := by
    rw [pushToMatch, if_neg not_matches_A51]
    rfl
  rw [hstep, dishGroups_one_A]
  simp only [groupStep, show truthyStr memA51.restaurant_name = true from rfl, hpush]
  rfl

lemma gN1_mem : gN1 ∈ dishGroups [memN1] := by
  rw [show dishGroups [memN1] = [gN1] from rfl]
  exact List.mem_singleton_self _

/-- C1: processing records in order, a record with a non-null restaurant
name is appended to the first group (in creation order) whose name matches
exactly and whose representative coordinate is within the 50-meter
Haversine threshold; appending leaves the representative coordinate
unchanged, and otherwise a new group is created at the record's coordinate.
Concretely, same-named records 0 and 49 meters apart form one group, and 51
meters apart form two. -/
theorem dishGroups_first_match_spec :
    (∀ (ms : List FoodMemory) (m : FoodMemory) (n : String),
        m.restaurant_name = some n →
        ((∃ gs1 g gs2,
            dishGroups ms = gs1 ++ g :: gs2 ∧
            (∀ g' ∈ gs1, ¬ groupMatches m g') ∧
            groupMatches m g ∧
            dishGroups (ms ++ [m]) =
              gs1 ++ { g with memories := g.memories ++ [m] } :: gs2) ∨
          ((∀ g' ∈ dishGroups ms, ¬ groupMatches m g') ∧
            ∃ g', dishGroups (ms ++ [m]) = dishGroups ms ++ [g'] ∧
              g'.latitude = m.latitude ∧ g'.longitude = m.longitude ∧
              g'.memories = [m]))) ∧
    (dishGroups [memA0, memA0b]).length = 1 ∧
    (dishGroups [memA0, memA49]).length = 1 ∧
    (dishGroups [memA0, memA51]).length = 2 := by
  refine ⟨?_, dishGroups_two_A0, dishGroups_two_A49, dishGroups_two_A51⟩
  intro ms m n hn
  rw [dishGroups_append]
  cases htr : truthyStr m.restaurant_name with
  | false =>
    have hempty : n = "" := by rw [hn] at htr; exact truthyStr_some_false htr
    refine Or.inr ⟨?_, ?_⟩
    · intro g' hg' hmt
      exact dishGroups_no_empty_name ms g' hg' (hmt.1.trans (by rw [hn, hempty]))
    · refine ⟨⟨GroupKey.single m.id, none, m.latitude, m.longitude, [m]⟩, ?_, rfl, rfl, rfl⟩
      simp only [groupStep, htr]
  | true =>
    cases hp : pushToMatch m (dishGroups ms) with
    | none =>
      refine Or.inr ⟨(pushToMatch_eq_none_iff m _).mp hp, ?_⟩
      refine ⟨⟨GroupKey.group (m.restaurant_name.getD "") m.latitude m.longitude,
        m.restaurant_name, m.latitude, m.longitude, [m]⟩, ?_, rfl, rfl, rfl⟩
      simp only [groupStep, htr, hp]
    | some gs' =>
      obtain ⟨gs1, g, gs2, heq, hno, hmt, hres⟩ := pushToMatch_eq_some m _ gs' hp
      refine Or.inl ⟨gs1, g, gs2, heq, hno, hmt, ?_⟩
      simp only [groupStep, htr, hp]
      exact hres

/-- Witness for C1: appending a second origin record named "A" to the
one-record list takes the first (matching) branch of the specification. -/
theorem dishGroups_first_match_spec_witness :
    (∃ gs1 g gs2,
        dishGroups [memA0] = gs1 ++ g :: gs2 ∧
        (∀ g' ∈ gs1, ¬ groupMatches memA0b g') ∧
        groupMatches memA0b g ∧
        dishGroups ([memA0] ++ [memA0b]) =
          gs1 ++ { g with memories := g.memories ++ [memA0b] } :: gs2) ∨
    ((∀ g' ∈ dishGroups [memA0], ¬ groupMatches memA0b g') ∧
      ∃ g', dishGroups ([memA0] ++ [memA0b]) = dishGroups [memA0] ++ [g'] ∧
        g'.latitude = memA0b.latitude ∧ g'.longitude = memA0b.longitude ∧
        g'.memories = [memA0b]) :=
  dishGroups_first_match_spec.1 [memA0] memA0b "A" rfl

/-- C2: a record with a null restaurant name always sits in a singleton
group — it is never merged with any other record, not even another
null-restaurant record at the same coordinates. -/
theorem nullRestaurant_singleton_spec :
    (∀ (ms : List FoodMemory) (g : DishGroup) (m : FoodMemory),
        g ∈ dishGroups ms → m ∈ g.memories → m.restaurant_name = none →
        g.memories = [m]) ∧
    (dishGroups [memN1, memN2]).length = 2 := by
  constructor
  · intro ms g m hg hm hnull
    rcases (dishGroups_inv ms g hg).2 with ⟨n, _, _, hall⟩ | ⟨_, m', hmem, _⟩
    · exact absurd (hall m hm) (by rw [hnull]; simp)
    · rw [hmem] at hm ⊢
      rcases List.mem_singleton.mp hm with rfl
      rfl
  · rfl

/-- Witness for C2: the null-restaurant record `memN1` sits alone in its
group. -/
theorem nullRestaurant_singleton_spec_witness : gN1.memories = [memN1] :=
  nullRestaurant_singleton_spec.1 [memN1] gN1 memN1 gN1_mem
    (List.mem_singleton_self _) rfl

/-- C3: the list-view order is a permutation of the marker order sorted
descending by the maximum member date (capture timestamp when present, else
creation timestamp); concretely, with capture timestamps 100 < 200 and
creation timestamps in the reverse order, the record with the later capture
timestamp comes first. -/
theorem sortedDishGroups_spec :
    (∀ gs : List DishGroup, (sortedDishGroups gs).Perm gs) ∧
    (∀ gs : List DishGroup,
        (sortedDishGroups gs).Sorted (fun a b => groupDate b ≤ groupDate a)) ∧
    memN1.photo_taken_at = some 100 ∧ memN2.photo_taken_at = some 200 ∧
    memN1.created_at = 200 ∧ memN2.created_at = 100 ∧
    (sortedDishGroups (dishGroups [memN1, memN2])).map
        (fun g => g.memories.map (fun m => m.id)) = [[2], [1]] :=
  ⟨sortedDishGroups_perm_aux, sortedDishGroups_sorted_aux, rfl, rfl, rfl, rfl, rfl⟩

/-- C9: the grouping partitions its input — the members of all groups are
exactly the input records, every group is nonempty, and in a group carrying
a non-null restaurant name every member's restaurant name equals it. -/
theorem dishGroups_partition_spec :
    (∀ ms : List FoodMemory, (flattenGroups (dishGroups ms)).Perm ms) ∧
    (∀ ms : List FoodMemory, ∀ g ∈ dishGroups ms, g.memories ≠ []) ∧
    (∀ ms : List FoodMemory, ∀ g ∈ dishGroups ms, ∀ n, g.restaurant_name = some n →
        ∀ m ∈ g.memories, m.restaurant_name = some n) := by
  refine ⟨dishGroups_flatten_perm, dishGroups_nonempty, ?_⟩
  intro ms g hg n hn m hm
  rcases (dishGroups_inv ms g hg).2 with ⟨n', _, hgn, hall⟩ | ⟨hgn, _⟩
  · rw [hgn] at hn
    cases hn
    exact hall m hm
  · rw [hgn] at hn
    cases hn

/-- Witness for C9: the one-record list flattens back to itself and its
single group is nonempty. -/
theorem dishGroups_partition_spec_witness :
    (flattenGroups (dishGroups [memN1])).Perm [memN1] ∧ gN1.memories ≠ [] :=
  ⟨dishGroups_partition_spec.1 [memN1],
   dishGroups_partition_spec.2.1 [memN1] gN1 gN1_mem⟩

/-! ## Place-link soundness of the identification step -/

lemma buildMapsUrl_some (rs : List Candidate) (nm : Option String) (link : MapsLink)
    (h : buildMapsUrl rs nm = some link) :
    ∃ c ∈ rs, nm = some c.name ∧ link.query = c.name ∧ link.place_id = c.place_id := by
  unfold buildMapsUrl at h
  cases htr : truthyStr nm with
  | false => rw [htr] at h; simp at h
  | true =>
    rw [htr] at h
    obtain ⟨s, rfl, hne⟩ := (truthyStr_eq_true_iff nm).mp htr
    cases hf : rs.find? (fun r => r.name == (some s).getD "") with
    | none => rw [hf] at h; simp at h
    | some c =>
      rw [hf] at h
      obtain rfl := Option.some.inj h
      have hc := List.mem_of_find?_eq_some hf
      have hname := List.find?_some hf
      have hcs : c.name = s := eq_of_beq hname
      exact ⟨c, hc, by rw [hcs], rfl, rfl⟩

lemma buildMapsUrl_no_match (rs : List Candidate) (n : String)
    (h : ∀ c ∈ rs, c.name ≠ n) : buildMapsUrl rs (some n) = none := by
  unfold buildMapsUrl
  cases htr : truthyStr (some n) with
  | false => rfl
  | true =>
    have hf : rs.find? (fun r => r.name == (some n).getD "") = none := by
      rw [List.find?_eq_none]
      intro c hc
      simpa using h c hc
    rw [hf]

lemma identify_result_sound (rs : List Candidate) (r : IdentifyResult)
    (h : r.googleMapsUrl = buildMapsUrl rs r.restaurantName) :
    (∀ link, r.googleMapsUrl = some link →
        ∃ c ∈ rs, r.restaurantName = some c.name ∧
          link.query = c.name ∧ link.place_id = c.place_id) ∧
    (∀ n, r.restaurantName = some n → (∀ c ∈ rs, c.name ≠ n) →
        r.googleMapsUrl = none) := by
  constructor
  · intro link hl
    exact buildMapsUrl_some rs _ link (h ▸ hl)
  · intro n hn hno
    rw [h, hn]
    exact buildMapsUrl_no_match rs n hno

lemma identify_link_sound (key : Bool) (oc : VisionOutcome) (rs : List Candidate) :
    (∀ link, (identifyDishAndRestaurant key oc rs).googleMapsUrl = some link →
        ∃ c ∈ rs, (identifyDishAndRestaurant key oc rs).restaurantName = some c.name ∧
          link.query = c.name ∧ link.place_id = c.place_id) ∧
    (∀ n, (identifyDishAndRestaurant key oc rs).restaurantName = some n →
        (∀ c ∈ rs, c.name ≠ n) →
        (identifyDishAndRestaurant key oc rs).googleMapsUrl = none) := by
  cases key with
  | false =>
    cases rs with
    | nil => exact identify_result_sound [] _ rfl
    | cons first rest =>
      constructor
      · intro link hl
        obtain rfl := Option.some.inj hl
        exact ⟨first, List.mem_cons_self _ _, rfl, rfl, rfl⟩
      · intro n hn hno
        exact absurd (Option.some.inj hn) (hno first (List.mem_cons_self _ _))
  | true =>
    cases rs with
    | nil =>
      cases oc with
      | transportError => exact identify_result_sound [] _ rfl
      | httpFailure => exact identify_result_sound [] _ rfl
      | ok content parse => exact identify_result_sound [] _ rfl
    | cons first rest =>
      cases oc with
      | transportError => exact identify_result_sound _ _ rfl
      | httpFailure => exact identify_result_sound _ _ rfl
      | ok content parse =>
        cases htr : truthyStr content with
        | false =>
          have hred : identifyDishAndRestaurant true (.ok content parse) (first :: rest) =
              ⟨none, some first.name, buildMapsUrl (first :: rest) (some first.name)⟩ := by
            simp only [identifyDishAndRestaurant, htr]
          rw [hred]
          exact identify_result_sound _ _ rfl
        | true =>
          cases parse with
          | parseFail =>
            have hred : identifyDishAndRestaurant true (.ok content .parseFail) (first :: rest) =
                ⟨content, some first.name, buildMapsUrl (first :: rest) (some first.name)⟩ := by
              simp only [identifyDishAndRestaurant, htr]
            rw [hred]
            exact identify_result_sound _ _ rfl
          | parsed dish restaurant =>
            have hred : identifyDishAndRestaurant true (.ok content (.parsed dish restaurant))
                (first :: rest) =
                ⟨jsOr dish none, jsOr restaurant (jsOr (some first.name) none),
                  buildMapsUrl (first :: rest) (jsOr restaurant (jsOr (some first.name) none))⟩ := by
              simp only [identifyDishAndRestaurant, htr]
            rw [hred]
            exact identify_result_sound _ _ rfl

/-- C4 counterexample: with one nearby candidate, a transport failure of
the identification call yields the first candidate as restaurant name —
not null as the claim states. -/
theorem identify_transport_fallback_cex :
    identifyDishAndRestaurant true VisionOutcome.transportError [candA] =
      ⟨none, some "A", some ⟨"A", "p1"⟩⟩ ∧
    (some "A" : Option String) ≠ none := ⟨rfl, by simp⟩

/-- C4 (amended): on an outright identification failure (transport error or
non-success status), the dish name becomes null and the restaurant name
falls back to the first nearby candidate whenever the candidate list is
non-empty (null when it is empty) — the same first-candidate fallback used
on a parse failure, not a fallback reserved for parse failures. -/
theorem identify_failure_fallback (rs : List Candidate) (oc : VisionOutcome)
    (h : oc = VisionOutcome.transportError ∨ oc = VisionOutcome.httpFailure) :
    identifyDishAndRestaurant true oc rs =
      ⟨none, rs.head?.map (fun c => c.name),
        buildMapsUrl rs (rs.head?.map (fun c => c.name))⟩ := by
  rcases h with rfl | rfl <;> cases rs <;> rfl

/-- Witness for the amended C4 at a non-success HTTP status with one
candidate. -/
theorem identify_failure_fallback_witness :
    identifyDishAndRestaurant true VisionOutcome.httpFailure [candA] =
      ⟨none, [candA].head?.map (fun c => c.name),
        buildMapsUrl [candA] ([candA].head?.map (fun c => c.name))⟩ :=
  identify_failure_fallback [candA] VisionOutcome.httpFailure (Or.inr rfl)

/-- C5 counterexample: latitude 200 is outside [-90, 90], yet the upload is
accepted and a record with that latitude is created. -/
theorem upload_range_cex :
    ¬ ((-90 : ℝ) ≤ 200 ∧ (200 : ℝ) ≤ 90) ∧
    ∃ row bytes nearby, uploadPOST form200 env0 = UploadOutcome.created row bytes nearby ∧
      row.latitude = 200 := by
  constructor
  · intro h
    have h2 := h.2
    norm_num at h2
  · exact ⟨_, _, _, rfl, rfl⟩

/-- C5 (amended): the upload endpoint rejects with a 400 validation error
exactly when the image is missing or a coordinate fails to parse as a
number (NaN); finite out-of-range coordinates are accepted and a record is
created. -/
theorem upload_validation_iff (f : UploadForm) (env : PipelineEnv) :
    uploadPOST f env = UploadOutcome.badRequest ↔
      (f.original = false ∨ f.latitude = none ∨ f.longitude = none) := by
  obtain ⟨o, la, lo, t⟩ := f
  cases o <;> cases la <;> cases lo <;> simp [uploadPOST]

/-- Witness for the amended C5: a missing image is rejected. -/
theorem upload_validation_iff_witness :
    uploadPOST { original := false, latitude := some 0, longitude := some 0 } env0 =
      UploadOutcome.badRequest :=
  (upload_validation_iff { original := false, latitude := some 0, longitude := some 0 }
    env0).mpr (Or.inl rfl)

/-- C6: a validated upload always yields a created record, with the display
image bytes taken from the background-removal result when some attempt
succeeded — the primary (auto) mode first, the secondary (product) mode
retried on any failure of the primary — and the original image bytes when
both attempts fail; no error is surfaced in that case. -/
theorem upload_display_image_spec (f : UploadForm) (env : PipelineEnv)
    (hf : f.original = true ∧ f.latitude ≠ none ∧ f.longitude ≠ none) :
    (∃ row nearby, uploadPOST f env =
        UploadOutcome.created row
          ((removeBackgroundWithRemoveBg env.bgAuto env.bgProduct).getD env.originalBytes)
          nearby) ∧
    (∀ b, env.bgAuto = BgAttempt.ok b →
        removeBackgroundWithRemoveBg env.bgAuto env.bgProduct = some b) ∧
    ((env.bgAuto = BgAttempt.httpFail ∨ env.bgAuto = BgAttempt.transportFail) →
      ∀ b, env.bgProduct = BgAttempt.ok b →
        removeBackgroundWithRemoveBg env.bgAuto env.bgProduct = some b) ∧
    ((env.bgAuto = BgAttempt.httpFail ∨ env.bgAuto = BgAttempt.transportFail) →
      (env.bgProduct = BgAttempt.httpFail ∨ env.bgProduct = BgAttempt.transportFail) →
      (removeBackgroundWithRemoveBg env.bgAuto env.bgProduct).getD env.originalBytes =
        env.originalBytes) := by
  obtain ⟨ho, hla, hlo⟩ := hf
  refine ⟨?_, ?_, ?_, ?_⟩
  · obtain ⟨o, la, lo, t⟩ := f
    subst ho
    obtain ⟨lat, rfl⟩ := Option.ne_none_iff_exists'.mp hla
    obtain ⟨lon, rfl⟩ := Option.ne_none_iff_exists'.mp hlo
    exact ⟨_, _, rfl⟩
  · intro b hb
    rw [hb]
    rfl
  · rintro (h | h) b hb <;> rw [h, hb] <;> rfl
  · rintro (h | h) (h2 | h2) <;> rw [h, h2] <;> rfl

/-- Witness for C6: with both background-removal attempts failing, the
upload still creates a record carrying the original bytes as the display
image. -/
theorem upload_display_image_spec_witness :
    ∃ row nearby, uploadPOST formOK env0 =
        UploadOutcome.created row
          ((removeBackgroundWithRemoveBg env0.bgAuto env0.bgProduct).getD env0.originalBytes)
          nearby :=
  (upload_display_image_spec formOK env0
    ⟨rfl, by simp [formOK], by simp [formOK]⟩).1

/-- C10: a created record's place-link is non-null only when the resolved
restaurant name equals some nearby candidate's name exactly
(case-sensitively), in which case the link embeds that candidate's stable
place identifier; a resolved name matching no candidate yields a null
place-link. -/
theorem upload_place_link_spec (f : UploadForm) (env : PipelineEnv)
    (row : MemoryRow) (bytes : Nat) (nearby : List String)
    (h : uploadPOST f env = UploadOutcome.created row bytes nearby) :
    (∀ link, row.google_maps_url = some link →
        ∃ c ∈ env.restaurants, row.restaurant_name = some c.name ∧
          link.query = c.name ∧ link.place_id = c.place_id) ∧
    (∀ n, row.restaurant_name = some n → (∀ c ∈ env.restaurants, c.name ≠ n) →
        row.google_maps_url = none) := by
  obtain ⟨o, la, lo, t⟩ := f
  cases o with
  | false => simp [uploadPOST] at h
  | true =>
    cases la with
    | none => simp [uploadPOST] at h
    | some lat =>
      cases lo with
      | none => simp [uploadPOST] at h
      | some lon =>
        simp only [uploadPOST] at h
        obtain ⟨hrow, -, -⟩ := UploadOutcome.created.inj h
        subst hrow
        exact identify_link_sound env.openaiKeySet env.vision env.restaurants

/-- Witness for C10: the created record of an upload whose identification
is skipped (no key) links to the sole candidate's place identifier. -/
theorem upload_place_link_spec_witness :
    ∃ c ∈ envA.restaurants, rowA.restaurant_name = some c.name ∧
      MapsLink.query ⟨"A", "p1"⟩ = c.name ∧ MapsLink.place_id ⟨"A", "p1"⟩ = c.place_id :=
  (upload_place_link_spec formOK envA rowA 0 ["A"] rfl).1 ⟨"A", "p1"⟩ rfl

/-! ## Backfill lemmas -/

lemma renamePass_map (db : List MemoryRow) : renamePass db = db.map renameRow := by
  unfold renamePass renameRow
  generalize NEIGHBORHOOD_OVERRIDES = ps
  induction ps generalizing db with
  | nil => simp
  | cons p ps ih =>
    simp only [List.foldl_cons]
    rw [ih, List.map_map]
    rfl

lemma renameRow_id (r : MemoryRow)
    (h : ∀ p ∈ NEIGHBORHOOD_OVERRIDES, r.neighborhood ≠ some p.1) :
    renameRow r = r := by
  unfold renameRow
  have gen : ∀ ps : List (String × String), (∀ p ∈ ps, r.neighborhood ≠ some p.1) →
      ps.foldl (fun s p => renameOne p s) r = r := by
    intro ps
    induction ps with
    | nil => intro _; rfl
    | cons p ps ih =>
      intro hp
      have hr : renameOne p r = r := by
        unfold renameOne
        rw [if_neg (by simpa using hp p (List.mem_cons_self _ _))]
      rw [List.foldl_cons, hr]
      exact ih (fun q hq => hp q (List.mem_cons.mpr (Or.inr hq)))
  exact gen NEIGHBORHOOD_OVERRIDES h

lemma backfillRow_not_selected (geo : ℝ → ℝ → GeoResult) (r : MemoryRow)
    (hn : r.neighborhood ≠ none) (hb : r.borough ≠ none) :
    backfillRow geo r = r := by
  obtain ⟨n0, hn0⟩ := Option.ne_none_iff_exists'.mp hn
  obtain ⟨b0, hb0⟩ := Option.ne_none_iff_exists'.mp hb
  unfold backfillRow
  rw [hn0, hb0]

lemma backfillRow_neigh_preserved (geo : ℝ → ℝ → GeoResult) (r : MemoryRow)
    (h : truthyStr (geo r.latitude r.longitude).neighborhood = false) :
    (backfillRow geo r).neighborhood = r.neighborhood := by
  unfold backfillRow
  cases hn : r.neighborhood with
  | some n0 =>
    cases hb : r.borough with
    | some b0 => rw [hn]
    | none =>
      simp only [h]
      cases hg : truthyStr (geo r.latitude r.longitude).borough <;>
        simp [truthyStr, hg, Option.orElse, hn]
  | none =>
    cases hb : r.borough with
    | some b0 =>
      simp only [h]
      cases hg : truthyStr (geo r.latitude r.longitude).borough <;>
        simp [truthyStr, hg, Option.orElse, hn]
    | none =>
      simp only [h]
      cases hg : truthyStr (geo r.latitude r.longitude).borough <;>
        simp [truthyStr, hg, Option.orElse, hn]

lemma backfillRow_borough_preserved (geo : ℝ → ℝ → GeoResult) (r : MemoryRow)
    (h : (geo r.latitude r.longitude).borough = none) :
    (backfillRow geo r).borough = r.borough := by
  unfold backfillRow
  cases hn : r.neighborhood with
  | some n0 =>
    cases hb : r.borough with
    | some b0 => rw [hb]
    | none =>
      simp only [h]
      cases hg : truthyStr (match truthyStr (geo r.latitude r.longitude).neighborhood with
        | true => some (normalizeNeighborhood ((geo r.latitude r.longitude).neighborhood.getD ""))
        | false => none) <;>
        simp [truthyStr, hg, Option.orElse, hb]
  | none =>
    cases hb : r.borough with
    | some b0 =>
      simp only [h]
      cases hg : truthyStr (match truthyStr (geo r.latitude r.longitude).neighborhood with
        | true => some (normalizeNeighborhood ((geo r.latitude r.longitude).neighborhood.getD ""))
        | false => none) <;>
        simp [truthyStr, hg, Option.orElse, hb]
    | none =>
      simp only [h]
      cases hg : truthyStr (match truthyStr (geo r.latitude r.longitude).neighborhood with
        | true => some (normalizeNeighborhood ((geo r.latitude r.longitude).neighborhood.getD ""))
        | false => none) <;>
        simp [truthyStr, hg, Option.orElse, hb]

lemma backfillLocations_eq (geo : ℝ → ℝ → GeoResult) (db : List MemoryRow) :
    backfillLocations geo db = (db.map renameRow).map (backfillRow geo) := by
  unfold backfillLocations
  rw [renamePass_map]

/-- C7 counterexample: a row with neighborhood "SoHo" and null borough is
selected by the backfill (null borough) and its non-null neighborhood is
overwritten by the freshly geocoded value "NoHo". -/
theorem backfill_overwrite_cex :
    rowSoHo.neighborhood = some "SoHo" ∧
    (backfillLocations geoNoHo [rowSoHo]).map (fun r => r.neighborhood) = [some "NoHo"] ∧
    (some "NoHo" : Option String) ≠ some "SoHo" :=
  ⟨rfl, rfl, by simp⟩

/-- C7 (amended): the backfill's geocoding pass never touches a row whose
neighborhood and borough are both non-null, and it keeps a stored field
whenever the geocoder yields a falsy neighborhood (resp. null borough) for
that row; but `COALESCE(new, old)` puts the freshly geocoded value first,
so a non-null stored value is replaced whenever the geocoder returns a
non-null one, and the preliminary rename pass rewrites neighborhoods listed
in the override table (rows with no override-listed neighborhood are left
alone by that pass). -/
theorem backfill_merge_spec (geo : ℝ → ℝ → GeoResult) (r : MemoryRow) :
    ((∀ p ∈ NEIGHBORHOOD_OVERRIDES, r.neighborhood ≠ some p.1) → renameRow r = r) ∧
    ((r.neighborhood ≠ none ∧ r.borough ≠ none) → backfillRow geo r = r) ∧
    (truthyStr (geo r.latitude r.longitude).neighborhood = false →
        (backfillRow geo r).neighborhood = r.neighborhood) ∧
    ((geo r.latitude r.longitude).borough = none →
        (backfillRow geo r).borough = r.borough) ∧
    (∀ db : List MemoryRow, backfillLocations geo db = (db.map renameRow).map (backfillRow geo)) :=
  ⟨renameRow_id r,
   fun h => backfillRow_not_selected geo r h.1 h.2,
   backfillRow_neigh_preserved geo r,
   backfillRow_borough_preserved geo r,
   backfillLocations_eq geo⟩

/-- Witness for the amended C7: a null geocode result leaves the stored
fields of the "SoHo" row unchanged. -/
theorem backfill_merge_spec_witness :
    (backfillRow geoNone rowSoHo).neighborhood = rowSoHo.neighborhood ∧
    (backfillRow geoNone rowSoHo).borough = rowSoHo.borough :=
  ⟨(backfill_merge_spec geoNone rowSoHo).2.2.1 rfl,
   (backfill_merge_spec geoNone rowSoHo).2.2.2.1 rfl⟩

/-- C8 counterexample: a PATCH body with every field absent nulls out the
stored dish name and friend tags instead of retaining them — the update is
not a partial update for those fields. -/
theorem patch_absent_overwrite_cex :
    rowFull.dish_name = some "Ramen" ∧
    (patchUpdate lookup0 emptyBody rowFull).dish_name = none ∧
    rowFull.friend_tags = some ["Sam"] ∧
    (patchUpdate lookup0 emptyBody rowFull).friend_tags = none :=
  ⟨rfl, rfl, rfl, rfl⟩

/-- C8 (amended): PATCH always overwrites friend tags, personal note and
dish name with the payload value (SQL NULL when the field is absent or
null); only the restaurant name and the derived place-link are retained
when `restaurant_name` is absent from the payload, and a present truthy
restaurant name is stored together with a freshly looked-up place-link.
All other columns are unchanged. -/
theorem patch_field_semantics (lookup : String → ℝ → ℝ → Option MapsLink)
    (body : PatchBody) (row : MemoryRow) :
    (patchUpdate lookup body row).id = row.id ∧
    (patchUpdate lookup body row).original_image_url = row.original_image_url ∧
    (patchUpdate lookup body row).cropped_image_url = row.cropped_image_url ∧
    (patchUpdate lookup body row).latitude = row.latitude ∧
    (patchUpdate lookup body row).longitude = row.longitude ∧
    (patchUpdate lookup body row).created_at = row.created_at ∧
    (patchUpdate lookup body row).photo_taken_at = row.photo_taken_at ∧
    (patchUpdate lookup body row).neighborhood = row.neighborhood ∧
    (patchUpdate lookup body row).borough = row.borough ∧
    (patchUpdate lookup body row).friend_tags = jsToSql body.friend_tags ∧
    (patchUpdate lookup body row).personal_note = jsToSql body.personal_note ∧
    (patchUpdate lookup body row).dish_name = jsToSql body.dish_name ∧
    (body.restaurant_name = JVal.absent →
      (patchUpdate lookup body row).restaurant_name = row.restaurant_name ∧
      (patchUpdate lookup body row).google_maps_url = row.google_maps_url) ∧
    (∀ s, body.restaurant_name = JVal.val s → s ≠ "" →
      (patchUpdate lookup body row).restaurant_name = some s ∧
      (patchUpdate lookup body row).google_maps_url = lookup s row.latitude row.longitude) := by
  obtain ⟨ft, pn, dn, rn⟩ := body
  cases rn with
  | absent =>
    refine ⟨rfl, rfl, rfl, rfl, rfl, rfl, rfl, rfl, rfl, rfl, rfl, rfl, ?_, ?_⟩
    · intro _
      exact ⟨rfl, rfl⟩
    · intro s h
      exact absurd h (fun hh => JVal.noConfusion hh)
  | null =>
    refine ⟨rfl, rfl, rfl, rfl, rfl, rfl, rfl, rfl, rfl, rfl, rfl, rfl, ?_, ?_⟩
    · intro h
      exact absurd h (fun hh => JVal.noConfusion hh)
    · intro s h
      exact absurd h (fun hh => JVal.noConfusion hh)
  | val s =>
    refine ⟨rfl, rfl, rfl, rfl, rfl, rfl, rfl, rfl, rfl, rfl, rfl, rfl, ?_, ?_⟩
    · intro h
      exact absurd h (fun hh => JVal.noConfusion hh)
    · intro s' h hne
      have hs : s = s' := by
        injection h
      subst hs
      have hbeq : ¬ ((s == "") = true) := by simpa using hne
      constructor
      · show (match JVal.val s with
          | JVal.val t => if t == "" then none else some t
          | _ => none) = some s
        rw [show (match JVal.val s with
          | JVal.val t => if t == "" then none else some t
          | _ => (none : Option String)) = if s == "" then none else some s from rfl]
        rw [if_neg hbeq]
      · show (match JVal.val s with
          | JVal.val t => if t == "" then none else lookup t row.latitude row.longitude
          | _ => none) = lookup s row.latitude row.longitude
        rw [show (match JVal.val s with
          | JVal.val t => if t == "" then none else lookup t row.latitude row.longitude
          | _ => (none : Option MapsLink)) =
          if s == "" then none else lookup s row.latitude row.longitude from rfl]
        rw [if_neg hbeq]

/-- Witness for the amended C8: the empty-body PATCH on the fully populated
row keeps the restaurant name and place-link but nulls the rest. -/
theorem patch_field_semantics_witness :
    (patchUpdate lookup0 emptyBody rowFull).restaurant_name = rowFull.restaurant_name ∧
    (patchUpdate lookup0 emptyBody rowFull).google_maps_url = rowFull.google_maps_url :=
  (patch_field_semantics lookup0 emptyBody rowFull).2.2.2.2.2.2.2.2.2.2.2.2.1 rfl
